import Mathlib

/-!
Shallow embedding of `spellbook_sidecar.py` (spell-record translation layer):
front-matter parsing, the three extractors, the import orchestrator and the
export orchestrator, together with theorems settling the frozen claims.

Modelling conventions:
* Python `str` is Lean `String`; only ASCII behaviour is relied on, matching
  every input that appears in a claim or counterexample.  The string
  primitives (`split`, `strip`, `lower`, `title`, `replace`, `join`) are
  re-implemented by structural recursion over `List Char` so that concrete
  evaluation reduces inside the kernel.
* Python dicts built by in-order assignment are association lists in
  insertion order; lookup takes the *last* binding (assignment overwrites).
* Python float literals (0.0 … 1.0) are embedded as exact rationals, a
  literal `0.d` becoming `mkRat d 10`; the code only ever assigns and
  compares these literals, so the embedding is exact for every claimed
  comparison.
* Filesystem and external capabilities (`path.exists()`, `Path.stem`,
  `Path.suffix`, sha-256 hashing, pdfminer / python-docx extraction,
  `uuid4().hex`, clock) are inputs of the model: each file carries the
  outcome the real call would produce.
-/

/-- Python whitespace characters stripped by `str.strip()` (ASCII part). -/
def pyWs (c : Char) : Bool :=
  c = ' ' || c = '\t' || c = '\n' || c = '\r' || c = '\x0b' || c = '\x0c'

/-- Python `str.strip()`: drop whitespace from both ends. -/
def pyStrip (s : String) : String :=
  ⟨((s.data.dropWhile pyWs).reverse.dropWhile pyWs).reverse⟩

/-- Python `str.lower()` (ASCII). -/
def pyLower (s : String) : String := ⟨s.data.map Char.toLower⟩

/-- `str.title()` on ASCII: a letter starts upper-case when it does not
follow a letter, later letters of a word are lower-cased. -/
def pyTitleAux : Bool → List Char → List Char
  | _, [] => []
  | prevAlpha, c :: cs =>
    if c.isAlpha then
      (if prevAlpha then c.toLower else c.toUpper) :: pyTitleAux true cs
    else
      c :: pyTitleAux false cs

/-- Python `str.title()` (ASCII). -/
def pyTitle (s : String) : String := ⟨pyTitleAux false s.data⟩

/-- `s.replace("_", " ")`: single-character replacement is a character map. -/
def pyUnderscoreToSpace (s : String) : String :=
  ⟨s.data.map (fun c => if c = '_' then ' ' else c)⟩

/-- Python `sep.join(xs)`. -/
def pyJoin (sep : String) : List String → String
  | [] => ""
  | [x] => x
  | x :: y :: xs => x ++ sep ++ pyJoin sep (y :: xs)

/-- `s.startswith(p)`. -/
def pyStartsWith (p s : String) : Bool := List.isPrefixOf p.data s.data

/-- `s.endswith(p)`. -/
def pyEndsWith (p s : String) : Bool :=
  List.isPrefixOf p.data.reverse s.data.reverse

/-- Left-to-right scan of `str.split(sep)` for a non-empty separator; the
fuel argument (instantiated with the length of the text) only makes the
recursion structural. -/
def pySplitAux (sep : List Char) : Nat → List Char → List Char → List (List Char)
  | _, acc, [] => [acc.reverse]
  | 0, acc, rest => [acc.reverse ++ rest]
  | fuel + 1, acc, c :: cs =>
    if List.isPrefixOf sep (c :: cs) then
      acc.reverse :: pySplitAux sep fuel [] (List.drop sep.length (c :: cs))
    else
      pySplitAux sep fuel (c :: acc) cs

/-- Python `s.split(sep)` for a non-empty separator. -/
def pySplit (sep s : String) : List String :=
  (pySplitAux sep.data s.data.length [] s.data).map (fun l => ⟨l⟩)

/-- Python `str.split(sep, 1)` when the separator occurs: the text before the
first occurrence and the rest. `none` when the separator is absent
(also models `sep in s` being false). -/
def splitOnce (sep s : String) : Option (String × String) :=
  match pySplit sep s with
  | [] => none
  | [_] => none
  | a :: rest => some (a, pyJoin sep rest)

/-- Header mapping produced by front-matter parsing: assignments in order. -/
abbrev HeaderMap := List (String × String)

/-- Python `dict.get`: the last assignment to the key wins. -/
def headerGet (m : HeaderMap) (k : String) : Option String :=
  m.foldl (fun acc kv => if kv.1 = k then some kv.2 else acc) none

/-- Python truthiness of `dict.get(k)`: present with a non-empty value. -/
def pyTruthy (o : Option String) : Bool :=
  match o with
  | some s => !s.data.isEmpty
  | none => false

/-- The per-line body of the `_parse_front_matter` loop: skip blank or
colon-less lines, otherwise record `key.strip() : value.strip()`. -/
def frontMatterLine (data : HeaderMap) (line : String) : HeaderMap :=
  if pyStrip line = "" then data
  else
    match splitOnce ":" line with
    | none => data
    | some (k, v) => data ++ [(pyStrip k, pyStrip v)]

/-- `_parse_front_matter`: text must start with `---`; split on `---`
(maxsplit 2); each line of the middle part that is non-blank and contains a
colon contributes `key.strip() : value.strip()`.  Lines are modelled as the
pieces between newline characters (`str.splitlines` for `\n`-separated
text). -/
def parseFrontMatter (text : String) : HeaderMap :=
  if pyStartsWith "---" text then
    match pySplit "---" text with
    | _ :: front :: rest =>
      if rest.isEmpty then []
      else (pySplit "\n" front).foldl frontMatterLine []
    | _ => []
  else []

/-- Body of a structured-text document: `parts[2].strip()` when the text
starts with `---` and splits into three parts, else the whole text. -/
def bodyOf (text : String) : String :=
  if pyStartsWith "---" text then
    match pySplit "---" text with
    | _ :: _ :: rest =>
      if rest.isEmpty then text else pyStrip (pyJoin "---" rest)
    | _ => text
  else text

/-- Digit run of Python `int()`, after the first digit: single underscores
are allowed between digits, anything else rejects the whole literal. -/
def pyIntDigits (acc : Nat) : List Char → Option Nat
  | [] => some acc
  | '_' :: c :: cs =>
    if c.isDigit then pyIntDigits (acc * 10 + (c.toNat - 48)) cs else none
  | '_' :: [] => none
  | c :: cs =>
    if c.isDigit then pyIntDigits (acc * 10 + (c.toNat - 48)) cs else none

/-- Python `int(s)` in base 10: optional surrounding whitespace, optional
sign, then digits (with optional single underscores); `none` on `ValueError`. -/
def pyInt (s : String) : Option Int :=
  match (pyStrip s).data with
  | '+' :: c :: cs =>
    if c.isDigit then (pyIntDigits (c.toNat - 48) cs).map Int.ofNat else none
  | '-' :: c :: cs =>
    if c.isDigit then (pyIntDigits (c.toNat - 48) cs).map (fun n => -(n : Int))
    else none
  | c :: cs =>
    if c.isDigit then (pyIntDigits (c.toNat - 48) cs).map Int.ofNat else none
  | [] => none

/-- Canonical spell record. Fields the binary extractors' dicts do not carry
are modelled as `none` / `0` there; the claims never distinguish an absent
key from `None`. Confidence is the dict built by each extractor, in order. -/
structure SpellRecord where
  name : String
  school : Option String
  sphere : Option String
  class_list : Option String
  level : Int
  range : Option String
  components : Option String
  material_components : Option String
  casting_time : Option String
  duration : Option String
  area : Option String
  saving_throw : Option String
  reversible : Nat
  description : String
  tags : Option String
  source : Option String
  edition : Option String
  author : Option String
  license : Option String
  is_quest_spell : Nat
  is_cantrip : Nat
  confidence : List (String × ℚ)
  raw_text : String
  source_file : String
  deriving Repr, DecidableEq

/-- Lookup in a confidence dict (last binding wins, as for `HeaderMap`). -/
def confGet (m : List (String × ℚ)) (k : String) : Option ℚ :=
  m.foldl (fun acc kv => if kv.1 = k then some kv.2 else acc) none

/-- `str(meta.get("level") or 0).lower().strip()`. -/
def levelValOf (m : HeaderMap) : String :=
  pyStrip
    (pyLower
      (match headerGet m "level" with
       | some s => if s = "" then "0" else s
       | none => "0"))

/-- Truthy auxiliary-marker test shared by `is_cantrip` and `reversible`:
`str(meta.get(k, "0")).lower() in {"1", "true", "yes"}`. -/
def markerTruthy (m : HeaderMap) (k : String) : Bool :=
  let v := pyLower ((headerGet m k).getD "0")
  v = "1" || v = "true" || v = "yes"

/-- The confidence dict of `_spell_from_markdown`, in assignment order. -/
def mdConfidence (m : HeaderMap) (description : String) : List (String × ℚ) :=
  [("name", if pyTruthy (headerGet m "name") then mkRat 10 10 else mkRat 3 10),
   ("level", if pyTruthy (headerGet m "level") then mkRat 10 10 else mkRat 2 10),
   ("school", if pyTruthy (headerGet m "school") then mkRat 10 10 else 0),
   ("description", if description ≠ "" then mkRat 9 10 else mkRat 1 10),
   ("source", if pyTruthy (headerGet m "source") then mkRat 10 10 else 0),
   ("sphere", if pyTruthy (headerGet m "sphere") then mkRat 10 10 else 0),
   ("class_list",
    if pyTruthy (headerGet m "class_list") || pyTruthy (headerGet m "classes")
    then mkRat 10 10 else 0),
   ("range", if pyTruthy (headerGet m "range") then mkRat 10 10 else 0),
   ("components", if pyTruthy (headerGet m "components") then mkRat 10 10 else 0),
   ("duration", if pyTruthy (headerGet m "duration") then mkRat 10 10 else 0)]

/-- `_spell_from_markdown`, with the file's text, stem and path as inputs
(`path.read_text`, `path.stem`, `str(path)`). -/
def spellFromMarkdown (text stem pathStr : String) : SpellRecord :=
  let m := parseFrontMatter text
  let description := bodyOf text
  let name :=
    if pyTruthy (headerGet m "name") then (headerGet m "name").getD ""
    else pyTitle (pyUnderscoreToSpace stem)
  let lv := levelValOf m
  let lqc : Int × Nat × Nat :=
    if lv = "cantrip" then (0, 0, 1)
    else if lv = "quest" then (8, 1, 0)
    else if lv = "8" ∧ pyTruthy (headerGet m "sphere") then (8, 1, 0)
    else
      match pyInt lv with
      | some n => (n, 0, if n = 0 ∧ markerTruthy m "is_cantrip" then 1 else 0)
      | none => (0, 0, 0)
  { name := name
    school := headerGet m "school"
    sphere := headerGet m "sphere"
    class_list :=
      if pyTruthy (headerGet m "class_list") then headerGet m "class_list"
      else headerGet m "classes"
    level := lqc.1
    range := headerGet m "range"
    components := headerGet m "components"
    material_components := headerGet m "material_components"
    casting_time := headerGet m "casting_time"
    duration := headerGet m "duration"
    area := headerGet m "area"
    saving_throw := headerGet m "saving_throw"
    reversible := if markerTruthy m "reversible" then 1 else 0
    description := description
    tags := headerGet m "tags"
    source := headerGet m "source"
    edition := headerGet m "edition"
    author := headerGet m "author"
    license := headerGet m "license"
    is_quest_spell := lqc.2.1
    is_cantrip := lqc.2.2
    confidence := mdConfidence m description
    raw_text := text
    source_file := pathStr }





/-- Characters of the regex class `[:\s]` (ASCII `\s`). -/
def levelSep (c : Char) : Bool :=
  c = ':' || c = ' ' || c = '\t' || c = '\n' || c = '\r' || c = '\x0b' || c = '\x0c'

/-- Case-insensitive literal match: the remainder after the keyword, when the
lower-cased text starts with it. -/
def lcMatch (kw : List Char) (cs : List Char) : Option (List Char) :=
  if (cs.take kw.length).map Char.toLower = kw then some (cs.drop kw.length)
  else none

/-- Digits-to-number for a captured `\d+` group (`int(match.group(1))`). -/
def digitsToNat (ds : List Char) : Nat :=
  ds.foldl (fun acc c => acc * 10 + (c.toNat - 48)) 0

/-- After the keyword: `[:\s]*` then the greedy capture `(\d+)`; `none` when
no digit follows (the regex then fails at this start position, since giving
back separator characters can never produce a digit). -/
def levelAfterKw (cs : List Char) : Option Nat :=
  let rest := cs.dropWhile levelSep
  let ds := rest.takeWhile Char.isDigit
  if ds.isEmpty then none else some (digitsToNat ds)

/-- `re.search(r"(?:Level|Lvl)[:\s]*(\d+)", text, re.IGNORECASE)`: leftmost
match, `Level` tried before `Lvl` at each position (the two alternatives are
mutually exclusive anyway, differing in their second character). Returns the
captured number. -/
def findLevel : List Char → Option Nat
  | [] => none
  | c :: cs =>
    match lcMatch ['l', 'e', 'v', 'e', 'l'] (c :: cs) with
    | some rest =>
      match levelAfterKw rest with
      | some n => some n
      | none =>
        match lcMatch ['l', 'v', 'l'] (c :: cs) with
        | some rest2 =>
          match levelAfterKw rest2 with
          | some n => some n
          | none => findLevel cs
        | none => findLevel cs
    | none =>
      match lcMatch ['l', 'v', 'l'] (c :: cs) with
      | some rest2 =>
        match levelAfterKw rest2 with
        | some n => some n
        | none => findLevel cs
      | none => findLevel cs

/-- The confidence dict shared verbatim by `_spell_from_pdf` and
`_spell_from_docx` (both list exactly these entries), from the level-regex
match and the extracted text. -/
def binaryConfidence (lm : Option Nat) (text : String) : List (String × ℚ) :=
  [("name", mkRat 3 10),
   ("level", if lm.isSome then mkRat 6 10 else mkRat 1 10),
   ("description", if pyStrip text ≠ "" then mkRat 7 10 else mkRat 1 10),
   ("source", mkRat 5 10),
   ("school", 0),
   ("sphere", 0),
   ("class_list", 0)]

/-- `_spell_from_pdf`, given the text pdfminer extracted and the file's stem
and path. The `pdfminer missing` / extraction-failure cases surface as
exceptions and are modelled at the orchestrator. -/
def spellFromPdf (text stem pathStr : String) : SpellRecord :=
  let lm := findLevel text.data
  { name := pyTitle (pyUnderscoreToSpace stem)
    school := none
    sphere := none
    class_list := none
    level := Int.ofNat (lm.getD 0)
    range := none
    components := none
    material_components := none
    casting_time := none
    duration := none
    area := none
    saving_throw := none
    reversible := 0
    description := pyStrip text
    tags := none
    source := some "PDF Import"
    edition := none
    author := none
    license := none
    is_quest_spell := 0
    is_cantrip := 0
    confidence := binaryConfidence lm text
    raw_text := text
    source_file := pathStr }

/-- `_spell_from_docx`, given the paragraph texts python-docx extracted:
`text = "\n\n".join(paragraphs)`, then the same logic as the pdf extractor
except for the source literal. -/
def spellFromDocx (paragraphs : List String) (stem pathStr : String) : SpellRecord :=
  let text := pyJoin "\n\n" paragraphs
  let lm := findLevel text.data
  { name := pyTitle (pyUnderscoreToSpace stem)
    school := none
    sphere := none
    class_list := none
    level := Int.ofNat (lm.getD 0)
    range := none
    components := none
    material_components := none
    casting_time := none
    duration := none
    area := none
    saving_throw := none
    reversible := 0
    description := pyStrip text
    tags := none
    source := some "DOCX Import"
    edition := none
    author := none
    license := none
    is_quest_spell := 0
    is_cantrip := 0
    confidence := binaryConfidence lm text
    raw_text := text
    source_file := pathStr }


/-- One input path of an import call, carrying the outcomes of the
filesystem and capability calls the orchestrator makes for it:
`path.exists()`, `Path(path).stem` / `.suffix`, then `_compute_hash` and the
extractor body.  `hash` is the outcome of `_compute_hash(path)`: the source
computes it *outside* the `try` of the loop, so `.error` (opening an
unreadable file, or a directory whose name carries a supported suffix)
models an exception the loop does not catch.  The extractor fields model
what runs *inside* the `try` — `.error` stands for an exception raised
there with the given message (a read failure after the hash succeeded, a
missing or failing pdfminer / python-docx), which the loop converts into a
conflict. -/
structure ImportFile where
  path : String
  stem : String
  suffix : String
  exists_ : Bool
  hash : Except String String
  mdText : Except String String
  pdfText : Except String String
  docxParas : Except String (List String)
  deriving Repr

/-- An entry of the artifacts list. -/
structure Artifact where
  ftype : String
  path : String
  hash : String
  imported_at : String
  deriving Repr, DecidableEq

/-- An entry of the conflicts list. -/
structure Conflict where
  path : String
  reason : String
  deriving Repr, DecidableEq

/-- `ext.lstrip(".")`. -/
def lstripDots (s : String) : String := ⟨s.data.dropWhile (· = '.')⟩

/-- The loop body of `handle_import` for one path.  The outer
`Except String` is an exception the loop does not catch, which escapes
`handle_import` and aborts the whole call: `_compute_hash` runs before the
`try`, so its failure propagates.  The inner `Except Conflict` is the
downgraded per-file outcome: a missing file ⇒ `missing` conflict; a raised
extractor exception ⇒ `parsing_error: <message>` conflict; an unknown
extension ⇒ `unsupported_extension` conflict; on success the record
together with its artifact (hash plus `_now_iso()` timestamp). -/
def importStep (now : String) (f : ImportFile) :
    Except String (Except Conflict (SpellRecord × Artifact)) :=
  if ¬ f.exists_ then .ok (.error ⟨f.path, "missing"⟩)
  else
    let ext := pyLower f.suffix
    match f.hash with
    | .error e => .error e
    | .ok fileHash =>
      let mkArt : Artifact := ⟨lstripDots ext, f.path, fileHash, now⟩
      if ext = ".md" then
        match f.mdText with
        | .ok text => .ok (.ok (spellFromMarkdown text f.stem f.path, mkArt))
        | .error e => .ok (.error ⟨f.path, "parsing_error: " ++ e⟩)
      else if ext = ".pdf" then
        match f.pdfText with
        | .ok text => .ok (.ok (spellFromPdf text f.stem f.path, mkArt))
        | .error e => .ok (.error ⟨f.path, "parsing_error: " ++ e⟩)
      else if ext = ".docx" then
        match f.docxParas with
        | .ok paras => .ok (.ok (spellFromDocx paras f.stem f.path, mkArt))
        | .error e => .ok (.error ⟨f.path, "parsing_error: " ++ e⟩)
      else .ok (.error ⟨f.path, "unsupported_extension"⟩)

/-- Result of `handle_import`: the three lists, in input order. -/
structure ImportResult where
  spells : List SpellRecord
  artifacts : List Artifact
  conflicts : List Conflict
  deriving Repr, DecidableEq

/-- `handle_import`: the loop over the input paths; each iteration appends
a record + artifact or a conflict, and an uncaught exception (the outer
error of `importStep`) aborts the call, discarding everything. -/
def handleImport (now : String) : List ImportFile → Except String ImportResult
  | [] => .ok ⟨[], [], []⟩
  | f :: fs =>
    match importStep now f with
    | .error e => .error e
    | .ok step =>
      match handleImport now fs with
      | .error e => .error e
      | .ok r =>
        match step with
        | .ok (s, a) => .ok ⟨s :: r.spells, a :: r.artifacts, r.conflicts⟩
        | .error c => .ok ⟨r.spells, r.artifacts, c :: r.conflicts⟩

/-- A path the import loop turns into a record: it exists, its content hash
read succeeds, its lower-cased extension is one of the three supported
ones, and the matching extractor returns without raising. -/
def validFile (f : ImportFile) : Bool :=
  f.exists_ && f.hash.isOk &&
    (let ext := pyLower f.suffix
     if ext = ".md" then f.mdText.isOk
     else if ext = ".pdf" then f.pdfText.isOk
     else if ext = ".docx" then f.docxParas.isOk
     else false)

/-- Sample files used by concrete witnesses. -/
def mdFile : ImportFile :=
  { path := "spells/fireball.md", stem := "fireball", suffix := ".md"
    exists_ := true, hash := .ok "h1"
    mdText := .ok "---\nname: Fireball\nlevel: 3\n---\nBoom."
    pdfText := .error "n/a", docxParas := .error "n/a" }

def missingFile : ImportFile :=
  { path := "spells/gone.md", stem := "gone", suffix := ".md"
    exists_ := false, hash := .error "No such file"
    mdText := .error "n/a", pdfText := .error "n/a", docxParas := .error "n/a" }

def pdfFile : ImportFile :=
  { path := "spells/ray.pdf", stem := "ray", suffix := ".pdf"
    exists_ := true, hash := .ok "h2"
    mdText := .error "n/a", pdfText := .ok "Ray\nLevel 2\nZap.", docxParas := .error "n/a" }

def badPdfFile : ImportFile :=
  { path := "spells/bad.pdf", stem := "bad", suffix := ".pdf"
    exists_ := true, hash := .ok "h3"
    mdText := .error "n/a", pdfText := .error "pdfminer.six not installed"
    docxParas := .error "n/a" }

def txtFile : ImportFile :=
  { path := "notes/readme.txt", stem := "readme", suffix := ".txt"
    exists_ := true, hash := .ok "h4"
    mdText := .ok "hello", pdfText := .error "n/a", docxParas := .error "n/a" }

/-- A path that exists but whose content-hash read raises (an unreadable
file, or a directory named with a supported suffix): the exception is not
caught and aborts the batch. -/
def unreadableFile : ImportFile :=
  { path := "spells/locked.md", stem := "locked", suffix := ".md"
    exists_ := true, hash := .error "Permission denied"
    mdText := .error "Permission denied", pdfText := .error "n/a"
    docxParas := .error "n/a" }





/-- Opaque-to-the-orchestrator character context; `handle_export` only passes
it through to the layout renderers. -/
abbrev CharacterData := List (String × String)

/-- The two keys of an export spell dict that `handle_export` itself reads
(in the default/list markdown branch); all other keys are only touched by
the layout renderers, which this model takes as function parameters. -/
structure ExportSpell where
  name : Option String
  description : Option String
  deriving Repr, DecidableEq

/-- Python f-string interpolation of `spell.get('name')`: `None` prints as
the four-letter word. -/
def pyFStrOpt (o : Option String) : String :=
  match o with
  | some s => s
  | none => "None"

/-- `params.get(k) or default` for string parameters. -/
def orDefault (o : Option String) (d : String) : String :=
  match o with
  | some s => if s = "" then d else s
  | none => d

/-- The parameters `handle_export` reads from its request. -/
structure ExportParams where
  spells : List ExportSpell
  format : Option String
  mode : Option String
  layout : Option String
  character : Option CharacterData
  class_name : Option String
  output_dir : Option String

/-- What `handle_export` returns: the dict `{path, format}` with the
optional `note` of the pdf branch. -/
structure ExportResult where
  path : String
  format : String
  note : Option String
  deriving Repr, DecidableEq

/-- The inline default/list markdown rendering of `handle_export`:
`# <name>` / blank / stripped description / blank per spell, joined with
newlines, stripped, plus a trailing newline. -/
def mdListText (spells : List ExportSpell) : String :=
  let lines := spells.foldl
    (fun acc sp =>
      acc ++ ["# " ++ pyFStrOpt sp.name, "", pyStrip (sp.description.getD ""), ""])
    []
  pyStrip (pyJoin "\n" lines) ++ "\n"

/-- `handle_export`.  The five layout-renderer components are parameters
(the orchestrator holds them by reference and never inspects their output);
`uid` is the `uuid4().hex` draw and `cwd` the `os.getcwd()` fallback.  The
returned list collects the `write_text` calls as (path, content) pairs, and
`Except.error` models the `ValueError` raised for an unsupported format. -/
def handleExport
    (renderCharacterSheetMarkdown : CharacterData → String)
    (renderSpellbookPackMarkdown : List ExportSpell → CharacterData → Option String → String)
    (renderPrintHtml : List ExportSpell → String → String → CharacterData → String)
    (renderCharacterSheetHtml : CharacterData → String)
    (renderSpellbookPackHtml : List ExportSpell → CharacterData → Option String → String → String)
    (uid cwd : String) (p : ExportParams) :
    Except String (ExportResult × List (String × String)) :=
  let spells := p.spells
  let fmt := orDefault p.format "md"
  let mode := orDefault p.mode "list"
  let layout := orDefault p.layout "compact"
  let character := (p.character).getD []
  let outputDir := orDefault p.output_dir cwd
  let outputPath := outputDir ++ "/" ++ ("spellbook_export_" ++ uid ++ "." ++ fmt)
  if fmt = "md" then
    let text :=
      if mode = "character_sheet" then renderCharacterSheetMarkdown character
      else if mode = "spellbook_pack" then
        renderSpellbookPackMarkdown spells character p.class_name
      else mdListText spells
    .ok (⟨outputPath, "md", none⟩, [(outputPath, text)])
  else if fmt = "html" then
    let htmlPath := outputDir ++ "/" ++ ("spellbook_export_" ++ uid ++ ".html")
    .ok (⟨htmlPath, "html", none⟩,
         [(htmlPath, renderPrintHtml spells mode layout character)])
  else if fmt = "pdf" then
    let htmlPath := outputDir ++ "/" ++ ("spellbook_export_" ++ uid ++ ".html")
    let html :=
      if mode = "character_sheet" then renderCharacterSheetHtml character
      else if mode = "spellbook_pack" then
        renderSpellbookPackHtml spells character p.class_name layout
      else renderPrintHtml spells mode layout character
    .ok (⟨htmlPath, "html",
          some "Print-optimized HTML generated. Use browser 'Print to PDF' for PDF output."⟩,
         [(htmlPath, html)])
  else .error ("Unsupported export format: " ++ fmt)

/-- Canonical decimal numeral of a natural number (fuel-structural so that
concrete evaluation reduces); used to state "verbatim" level equality. -/
def natReprAux : Nat → Nat → List Char
  | 0, _ => []
  | fuel + 1, n =>
    if n < 10 then [Char.ofNat (48 + n)]
    else natReprAux fuel (n / 10) ++ [Char.ofNat (48 + n % 10)]

def natRepr (n : Nat) : String := ⟨natReprAux (n + 1) n⟩

/-- Canonical decimal numeral of an integer. -/
def intRepr : Int → String
  | .ofNat m => natRepr m
  | .negSucc m => "-" ++ natRepr (m + 1)

/-- The header keys `_spell_from_markdown` reads while building the record
(the canonical fields plus the `classes` alias and the `is_cantrip` marker);
all other keys of the parsed header cannot influence the record. -/
def canonicalKeys : List String :=
  ["name", "level", "sphere", "is_cantrip", "school", "class_list", "classes",
   "range", "components", "duration", "material_components", "casting_time",
   "area", "saving_throw", "reversible", "tags", "source", "edition", "author",
   "license"]

/-- The canonical field set of the spec's data model (§3). -/
def specCanonicalFields : List String :=
  ["name", "school", "sphere", "class_list", "level", "range", "components",
   "material_components", "casting_time", "duration", "area", "saving_throw",
   "description", "source", "tags", "edition", "author", "license",
   "reversible"]

/-- Everything of a record except its `_raw_text` provenance, as one tuple. -/
def SpellRecord.core (r : SpellRecord) :=
  (r.name, r.school, r.sphere, r.class_list, r.level, r.range, r.components,
   r.material_components, r.casting_time, r.duration, r.area, r.saving_throw,
   r.reversible, r.description, r.tags, r.source, r.edition, r.author,
   r.license, r.is_quest_spell, r.is_cantrip, r.confidence, r.source_file)

/-- Modelled from the spec: the "first level-1 heading line (`# ...`)" of a
document body, which §4.2 names as the second step of name resolution. The
source of `_spell_from_markdown` contains no such step; this definition
exists only to compare the spec's resolution order with the code's. -/
def specFirstHeading (body : String) : Option String :=
  (pySplit "\n" body).find? (pyStartsWith "# ")

/-- The record half of a non-aborting loop iteration's outcome. -/
def stepSpell (now : String) (f : ImportFile) : Option SpellRecord :=
  match importStep now f with
  | .ok (.ok sa) => some sa.1
  | _ => none

/-- The artifact half of a non-aborting loop iteration's outcome. -/
def stepArtifact (now : String) (f : ImportFile) : Option Artifact :=
  match importStep now f with
  | .ok (.ok sa) => some sa.2
  | _ => none

/-- The conflict half of a non-aborting loop iteration's outcome. -/
def stepConflict (now : String) (f : ImportFile) : Option Conflict :=
  match importStep now f with
  | .ok (.error c) => some c
  | _ => none

/-- Record and artifact produced for `mdFile`, used by the C9 witness. -/
def mdRecordW : SpellRecord :=
  spellFromMarkdown "---\nname: Fireball\nlevel: 3\n---\nBoom." "fireball"
    "spells/fireball.md"

def mdArtifactW : Artifact := ⟨"md", "spells/fireball.md", "h1", "t0"⟩

/-- The completed result of importing `[mdFile]`, used by the C9 witness. -/
def mdResultW : ImportResult := ⟨[mdRecordW], [mdArtifactW], []⟩

/-! ### Helper lemmas -/

lemma isPrefixOf_append_self (l t : List Char) : List.isPrefixOf l (l ++ t) = true := by
  induction l with
  | nil => simp [List.isPrefixOf]
  | cons c cs ih => simp [List.isPrefixOf, ih]

lemma pyEndsWith_append (a b suf : String) : pyEndsWith suf (a ++ (b ++ suf)) = true := by
  unfold pyEndsWith
  rw [String.data_append, String.data_append, List.reverse_append, List.reverse_append,
    List.append_assoc]
  exact isPrefixOf_append_self _ _

lemma filterMap_length_of_isSome {α β : Type _} (g : α → Option β) (l : List α)
    (h : ∀ x ∈ l, (g x).isSome = true) : (l.filterMap g).length = l.length := by
  induction l with
  | nil => rfl
  | cons x xs ih =>
    rw [List.filterMap_cons]
    cases hx : g x with
    | none => exact absurd (h x (by simp)) (by simp [hx])
    | some b => simp [ih fun y hy => h y (by simp [hy])]

lemma handleImport_ok_eq (now : String) (fs : List ImportFile) :
    ∀ r : ImportResult, handleImport now fs = .ok r →
      r = ⟨fs.filterMap (stepSpell now), fs.filterMap (stepArtifact now),
           fs.filterMap (stepConflict now)⟩ := by
  induction fs with
  | nil =>
    intro r h
    simp only [handleImport] at h
    injection h with h1
    rw [← h1]
    rfl
  | cons f fs ih =>
    intro r h
    simp only [handleImport] at h
    cases hs : importStep now f with
    | error e => rw [hs] at h; simp at h
    | ok step =>
      rw [hs] at h
      cases hr : handleImport now fs with
      | error e => rw [hr] at h; simp at h
      | ok r2 =>
        rw [hr] at h
        have hr2 := ih r2 hr
        cases step with
        | ok sa =>
          obtain ⟨sp, ar⟩ := sa
          injection h with h1
          rw [← h1, hr2]
          simp [List.filterMap_cons, stepSpell, stepArtifact, stepConflict, hs]
        | error c =>
          injection h with h1
          rw [← h1, hr2]
          simp [List.filterMap_cons, stepSpell, stepArtifact, stepConflict, hs]

lemma handleImport_counts (now : String) (fs : List ImportFile) :
    ∀ r : ImportResult, handleImport now fs = .ok r →
      r.spells.length + r.conflicts.length = fs.length
      ∧ r.artifacts.length = r.spells.length := by
  induction fs with
  | nil =>
    intro r h
    simp only [handleImport] at h
    injection h with h1
    rw [← h1]
    exact ⟨rfl, rfl⟩
  | cons f fs ih =>
    intro r h
    simp only [handleImport] at h
    cases hs : importStep now f with
    | error e => rw [hs] at h; simp at h
    | ok step =>
      rw [hs] at h
      cases hr : handleImport now fs with
      | error e => rw [hr] at h; simp at h
      | ok r2 =>
        rw [hr] at h
        obtain ⟨iha, ihb⟩ := ih r2 hr
        cases step with
        | ok sa =>
          obtain ⟨sp, ar⟩ := sa
          injection h with h1
          rw [← h1]
          refine ⟨?_, ?_⟩ <;> (simp only [List.length_cons]; omega)
        | error c =>
          injection h with h1
          rw [← h1]
          refine ⟨?_, ?_⟩ <;> (simp only [List.length_cons]; omega)

lemma importStep_ok_path (now : String) (f : ImportFile) (s : SpellRecord)
    (a : Artifact) (h : importStep now f = .ok (.ok (s, a))) :
    s.source_file = f.path ∧ a.path = f.path := by
  unfold importStep at h
  cases hex : f.exists_ with
  | false => rw [hex] at h; simp at h
  | true =>
    rw [hex] at h
    simp only [not_true, if_false, ite_false, Bool.true_eq_false] at h
    repeat' split at h
    all_goals first
      | (injection h with h1
         injection h1 with h2
         injection h2 with hs ha
         subst hs
         subst ha
         exact ⟨rfl, rfl⟩)
      | (injection h with h1
         injection h1)
      | injection h

lemma handleImport_zip (now : String) (fs : List ImportFile) :
    ∀ r : ImportResult, handleImport now fs = .ok r →
      ∀ p ∈ r.spells.zip r.artifacts, p.1.source_file = p.2.path := by
  induction fs with
  | nil =>
    intro r h p hp
    simp only [handleImport] at h
    injection h with h1
    rw [← h1] at hp
    simp at hp
  | cons f fs ih =>
    intro r h p hp
    simp only [handleImport] at h
    cases hs : importStep now f with
    | error e => rw [hs] at h; simp at h
    | ok step =>
      rw [hs] at h
      cases hr : handleImport now fs with
      | error e => rw [hr] at h; simp at h
      | ok r2 =>
        rw [hr] at h
        cases step with
        | ok sa =>
          obtain ⟨sp, ar⟩ := sa
          injection h with h1
          rw [← h1] at hp
          simp only [List.zip_cons_cons, List.mem_cons] at hp
          rcases hp with hp | hp
          · subst hp
            have hpa := importStep_ok_path now f sp ar hs
            exact hpa.1.trans hpa.2.symm
          · exact ih r2 hr p hp
        | error c =>
          injection h with h1
          rw [← h1] at hp
          exact ih r2 hr p hp

lemma step_of_valid (now : String) (f : ImportFile)
    (h : validFile f = true) :
    (stepSpell now f).isSome = true ∧ (stepArtifact now f).isSome = true
      ∧ stepConflict now f = none
      ∧ ∃ step, importStep now f = .ok step := by
  unfold validFile at h
  rw [Bool.and_eq_true, Bool.and_eq_true] at h
  obtain ⟨⟨h1, hh⟩, h2⟩ := h
  cases hhv : f.hash with
  | error e => rw [hhv] at hh; exact absurd hh (by simp [Except.isOk, Except.toBool])
  | ok hv =>
    by_cases e1 : pyLower f.suffix = ".md"
    · simp only [e1, if_true] at h2
      cases hm : f.mdText with
      | ok t =>
        refine ⟨?_, ?_, ?_, ?_⟩ <;>
          simp [stepSpell, stepArtifact, stepConflict, importStep, h1, hhv, e1, hm]
      | error e => rw [hm] at h2; exact absurd h2 (by simp [Except.isOk, Except.toBool])
    · by_cases e2 : pyLower f.suffix = ".pdf"
      · simp only [e1, e2, if_false, if_true, ite_false, ite_true] at h2
        cases hm : f.pdfText with
        | ok t =>
          refine ⟨?_, ?_, ?_, ?_⟩ <;>
            simp [stepSpell, stepArtifact, stepConflict, importStep, h1, hhv, e1, e2, hm]
        | error e => rw [hm] at h2; exact absurd h2 (by simp [Except.isOk, Except.toBool])
      · by_cases e3 : pyLower f.suffix = ".docx"
        · simp only [e1, e2, e3, if_false, if_true, ite_false, ite_true] at h2
          cases hm : f.docxParas with
          | ok t =>
            refine ⟨?_, ?_, ?_, ?_⟩ <;>
              simp [stepSpell, stepArtifact, stepConflict, importStep, h1, hhv,
                e1, e2, e3, hm]
          | error e => rw [hm] at h2; exact absurd h2 (by simp [Except.isOk, Except.toBool])
        · simp [e1, e2, e3] at h2

lemma stepConflict_of_missing (now : String) (f : ImportFile)
    (h : f.exists_ = false) :
    stepConflict now f = some ⟨f.path, "missing"⟩
      ∧ stepSpell now f = none ∧ stepArtifact now f = none := by
  simp [stepConflict, stepSpell, stepArtifact, importStep, h]

lemma handleImport_ok_of_steps (now : String) (fs : List ImportFile)
    (h : ∀ f ∈ fs, ∃ step, importStep now f = .ok step) :
    ∃ r, handleImport now fs = .ok r := by
  induction fs with
  | nil => exact ⟨⟨[], [], []⟩, rfl⟩
  | cons f fs ih =>
    obtain ⟨step, hstep⟩ := h f (by simp)
    obtain ⟨r, hr⟩ := ih fun g hg => h g (by simp [hg])
    cases step with
    | ok sa =>
      obtain ⟨sp, ar⟩ := sa
      exact ⟨⟨sp :: r.spells, ar :: r.artifacts, r.conflicts⟩,
        by simp [handleImport, hstep, hr]⟩
    | error c =>
      exact ⟨⟨r.spells, r.artifacts, c :: r.conflicts⟩,
        by simp [handleImport, hstep, hr]⟩

/-! ### Claim theorems -/

/-- C9: in every import call that completes (returns a result rather than
raising), each input path contributes exactly one entry to either the
records list or the conflicts list (their lengths sum to the number of
input paths), the records and artifacts lists have equal length, all three
output lists are the in-order projections of the per-path outcomes (hence
preserve the input order), and the i-th artifact describes the file of the
i-th record (its path equals the record's source file). -/
theorem import_output_alignment (now : String) (fs : List ImportFile)
    (r : ImportResult) (h : handleImport now fs = .ok r) :
    r.spells.length + r.conflicts.length = fs.length
    ∧ r.artifacts.length = r.spells.length
    ∧ r.spells = fs.filterMap (stepSpell now)
    ∧ r.artifacts = fs.filterMap (stepArtifact now)
    ∧ r.conflicts = fs.filterMap (stepConflict now)
    ∧ ∀ p ∈ r.spells.zip r.artifacts, p.1.source_file = p.2.path := by
  have he := handleImport_ok_eq now fs r h
  have hc := handleImport_counts now fs r h
  refine ⟨hc.1, hc.2, ?_, ?_, ?_, handleImport_zip now fs r h⟩ <;> rw [he]

/-- Witness for C9 at a concrete completed batch. -/
theorem import_output_alignment_witness :
    mdResultW.spells.length + mdResultW.conflicts.length = 1
      ∧ mdRecordW.source_file = mdArtifactW.path :=
  ⟨(import_output_alignment "t0" [mdFile] mdResultW rfl).1,
   (import_output_alignment "t0" [mdFile] mdResultW rfl).2.2.2.2.2
     (mdRecordW, mdArtifactW) (by decide)⟩

/-- C1 (counterexample): a per-file failure that aborts the whole batch.
`_compute_hash` runs outside the `try` of the loop, so for an existing path
whose bytes cannot be read (an unreadable file, or a directory named
`*.md` — `Path.exists()` is true for directories) the exception escapes
`handle_import`: the call returns no records, artifacts or conflicts at
all, even though a fully valid path was in the batch — refuting "no
per-file failure ever aborts the batch or propagates to the caller". -/
theorem import_abort_cex :
    unreadableFile.exists_ = true
    ∧ pyLower unreadableFile.suffix = ".md"
    ∧ validFile mdFile = true
    ∧ handleImport "t0" [unreadableFile, mdFile] = .error "Permission denied" :=
  ⟨rfl, by decide, by decide, rfl⟩

/-- C1 (amended): per-path error isolation holds for the failure modes the
loop guards — a missing path becomes a `missing` conflict, an extractor
exception becomes a `parsing_error: <message>` conflict, an unsupported
extension becomes a conflict and never a record, and a batch of one missing
path plus N valid paths completes with exactly N records, one `missing`
conflict and N artifacts.  The exception is the content-hash read, computed
before the `try`: its failure on an existing path propagates and aborts the
whole call. -/
theorem import_error_isolation (now : String) :
    (∀ f : ImportFile, f.exists_ = false →
        importStep now f = .ok (.error ⟨f.path, "missing"⟩))
  ∧ (∀ f : ImportFile, ∀ e hv : String, f.exists_ = true → f.hash = .ok hv →
        pyLower f.suffix = ".md" → f.mdText = .error e →
        importStep now f = .ok (.error ⟨f.path, "parsing_error: " ++ e⟩))
  ∧ (∀ f : ImportFile, ∀ e hv : String, f.exists_ = true → f.hash = .ok hv →
        pyLower f.suffix = ".pdf" → f.pdfText = .error e →
        importStep now f = .ok (.error ⟨f.path, "parsing_error: " ++ e⟩))
  ∧ (∀ f : ImportFile, ∀ e hv : String, f.exists_ = true → f.hash = .ok hv →
        pyLower f.suffix = ".docx" → f.docxParas = .error e →
        importStep now f = .ok (.error ⟨f.path, "parsing_error: " ++ e⟩))
  ∧ (∀ f : ImportFile, ∀ hv : String, f.exists_ = true → f.hash = .ok hv →
        pyLower f.suffix ≠ ".md" → pyLower f.suffix ≠ ".pdf" →
        pyLower f.suffix ≠ ".docx" →
        importStep now f = .ok (.error ⟨f.path, "unsupported_extension"⟩))
  ∧ (∀ f : ImportFile, ∀ e : String, f.exists_ = true → f.hash = .error e →
        importStep now f = .error e)
  ∧ (∀ pre post : List ImportFile, ∀ bad : ImportFile, bad.exists_ = false →
        (∀ f ∈ pre ++ post, validFile f = true) →
        ∃ r : ImportResult, handleImport now (pre ++ bad :: post) = .ok r
          ∧ r.spells.length = pre.length + post.length
          ∧ r.conflicts = [⟨bad.path, "missing"⟩]
          ∧ r.artifacts.length = pre.length + post.length) := by
  refine ⟨?_, ?_, ?_, ?_, ?_, ?_, ?_⟩
  · intro f h; simp [importStep, h]
  · intro f e hv h1 hh h2 h3; simp [importStep, h1, hh, h2, h3]
  · intro f e hv h1 hh h2 h3; simp [importStep, h1, hh, h2, h3]
  · intro f e hv h1 hh h2 h3; simp [importStep, h1, hh, h2, h3]
  · intro f hv h1 hh h2 h3 h4; simp [importStep, h1, hh, h2, h3, h4]
  · intro f e h1 hh; simp [importStep, h1, hh]
  · intro pre post bad hbad hvalid
    have hpre : ∀ f ∈ pre, validFile f = true := by
      intro f hf; exact hvalid f (by simp [hf])
    have hpost : ∀ f ∈ post, validFile f = true := by
      intro f hf; exact hvalid f (by simp [hf])
    have hsteps : ∀ f ∈ pre ++ bad :: post, ∃ step, importStep now f = .ok step := by
      intro f hf
      rcases List.mem_append.mp hf with hf | hf
      · exact (step_of_valid now f (hpre f hf)).2.2.2
      · rcases List.mem_cons.mp hf with hfeq | hf
        · subst hfeq
          exact ⟨.error ⟨f.path, "missing"⟩, by simp [importStep, hbad]⟩
        · exact (step_of_valid now f (hpost f hf)).2.2.2
    obtain ⟨r, hr⟩ := handleImport_ok_of_steps now _ hsteps
    have he := handleImport_ok_eq now _ r hr
    have hbadc := stepConflict_of_missing now bad hbad
    have hcpre : pre.filterMap (stepConflict now) = [] :=
      List.filterMap_eq_nil_iff.mpr fun f hf => (step_of_valid now f (hpre f hf)).2.2.1
    have hcpost : post.filterMap (stepConflict now) = [] :=
      List.filterMap_eq_nil_iff.mpr fun f hf => (step_of_valid now f (hpost f hf)).2.2.1
    have hspre : (pre.filterMap (stepSpell now)).length = pre.length :=
      filterMap_length_of_isSome _ _ fun f hf => (step_of_valid now f (hpre f hf)).1
    have hspost : (post.filterMap (stepSpell now)).length = post.length :=
      filterMap_length_of_isSome _ _ fun f hf => (step_of_valid now f (hpost f hf)).1
    have hapre : (pre.filterMap (stepArtifact now)).length = pre.length :=
      filterMap_length_of_isSome _ _ fun f hf => (step_of_valid now f (hpre f hf)).2.1
    have hapost : (post.filterMap (stepArtifact now)).length = post.length :=
      filterMap_length_of_isSome _ _ fun f hf => (step_of_valid now f (hpost f hf)).2.1
    refine ⟨r, hr, ?_, ?_, ?_⟩
    · rw [he]
      simp [List.filterMap_append, List.filterMap_cons, hbadc.2.1, hspre, hspost]
    · rw [he]
      simp [List.filterMap_append, List.filterMap_cons, hbadc.1, hcpre, hcpost]
    · rw [he]
      simp [List.filterMap_append, List.filterMap_cons, hbadc.2.2, hapre, hapost]

/-- Witness for C1 (amended): one markdown file, one missing path, one pdf
file. -/
theorem import_error_isolation_witness :
    ∃ r : ImportResult, handleImport "t0" [mdFile, missingFile, pdfFile] = .ok r
      ∧ r.spells.length = 2
      ∧ r.conflicts = [⟨"spells/gone.md", "missing"⟩]
      ∧ r.artifacts.length = 2 := by
  obtain ⟨r, h1, h2, h3, h4⟩ :=
    (import_error_isolation "t0").2.2.2.2.2.2 [mdFile] [pdfFile] missingFile rfl
      (by decide)
  exact ⟨r, h1, h2, h3, h4⟩

/-- C2: an export call requesting format `pdf` succeeds, returns format
`"html"` (never echoing `pdf` back), a path ending in `.html` that is among
the files written by the call, and a non-empty explanatory note — for any
layout renderers, so in particular with the external conversion capability
unavailable (the code has no conversion step at all). -/
theorem export_pdf_fallback
    (rcsMd : CharacterData → String)
    (rpackMd : List ExportSpell → CharacterData → Option String → String)
    (rprint : List ExportSpell → String → String → CharacterData → String)
    (rcsHtml : CharacterData → String)
    (rpackHtml : List ExportSpell → CharacterData → Option String → String → String)
    (uid cwd : String) (p : ExportParams) (hfmt : p.format = some "pdf") :
    ∃ res written,
      handleExport rcsMd rpackMd rprint rcsHtml rpackHtml uid cwd p
          = .ok (res, written)
      ∧ res.format = "html"
      ∧ res.format ≠ "pdf"
      ∧ pyEndsWith ".html" res.path = true
      ∧ (∃ content, (res.path, content) ∈ written)
      ∧ ∃ note, res.note = some note ∧ note ≠ "" := by
  simp only [handleExport, hfmt, orDefault]
  norm_num
  refine ⟨_, _, rfl, rfl, by simp, ?_, ?_, ?_⟩
  · exact pyEndsWith_append (orDefault p.output_dir cwd ++ "/")
      ("spellbook_export_" ++ uid) ".html"
  · exact ⟨_, List.mem_singleton.mpr rfl⟩
  · exact ⟨_, rfl, by decide⟩

/-- Witness for C2 at a concrete request with trivial renderers. -/
theorem export_pdf_fallback_witness :
    ∃ res written,
      handleExport (fun _ => "") (fun _ _ _ => "") (fun _ _ _ _ => "")
          (fun _ => "") (fun _ _ _ _ => "") "cafe01" "/tmp"
          ⟨[], some "pdf", none, none, none, none, some "/out"⟩
        = .ok (res, written)
      ∧ res.format = "html"
      ∧ res.format ≠ "pdf"
      ∧ pyEndsWith ".html" res.path = true
      ∧ (∃ content, (res.path, content) ∈ written)
      ∧ ∃ note, res.note = some note ∧ note ≠ "" :=
  export_pdf_fallback _ _ _ _ _ "cafe01" "/tmp" _ rfl

/-- C3 (counterexample): a structured-text document with explicit header
name and level whose level value is `cantrip` has both confidences 1.0 and
a verbatim name, but its record level is the integer 0, which is not the
header value `"cantrip"` verbatim — refuting "the record's name and level
equal the header values verbatim" as universally stated. -/
theorem md_confidence_verbatim_cex :
    headerGet (parseFrontMatter "---\nname: Fireball\nlevel: cantrip\n---\nBoom.")
        "name" = some "Fireball"
    ∧ headerGet (parseFrontMatter "---\nname: Fireball\nlevel: cantrip\n---\nBoom.")
        "level" = some "cantrip"
    ∧ confGet (spellFromMarkdown "---\nname: Fireball\nlevel: cantrip\n---\nBoom."
        "fireball" "p").confidence "name" = some (mkRat 10 10)
    ∧ confGet (spellFromMarkdown "---\nname: Fireball\nlevel: cantrip\n---\nBoom."
        "fireball" "p").confidence "level" = some (mkRat 10 10)
    ∧ (spellFromMarkdown "---\nname: Fireball\nlevel: cantrip\n---\nBoom."
        "fireball" "p").name = "Fireball"
    ∧ (spellFromMarkdown "---\nname: Fireball\nlevel: cantrip\n---\nBoom."
        "fireball" "p").level = 0
    ∧ intRepr (spellFromMarkdown "---\nname: Fireball\nlevel: cantrip\n---\nBoom."
        "fireball" "p").level ≠ "cantrip" := by
  decide

/-- C3 (amended): the structured-text per-field confidence policy holds as
stated (with "present" meaning present with a non-empty value); with an
explicit header name the record's name is the header value verbatim; the
record's level is the integer value of the normalized header level whenever
that parses as an integer — hence verbatim for canonical numerals, while
the tokens `cantrip`/`quest` map to 0/8 instead; and with no header at all
the name confidence is 0.3 < 0.5 and the level confidence 0.2 < 0.3. -/
theorem md_confidence_policy (text stem pathStr : String) :
    (confGet (spellFromMarkdown text stem pathStr).confidence "name"
      = some (if pyTruthy (headerGet (parseFrontMatter text) "name")
              then mkRat 10 10 else mkRat 3 10))
    ∧ (confGet (spellFromMarkdown text stem pathStr).confidence "level"
      = some (if pyTruthy (headerGet (parseFrontMatter text) "level")
              then mkRat 10 10 else mkRat 2 10))
    ∧ (confGet (spellFromMarkdown text stem pathStr).confidence "school"
      = some (if pyTruthy (headerGet (parseFrontMatter text) "school")
              then mkRat 10 10 else 0))
    ∧ (confGet (spellFromMarkdown text stem pathStr).confidence "source"
      = some (if pyTruthy (headerGet (parseFrontMatter text) "source")
              then mkRat 10 10 else 0))
    ∧ (confGet (spellFromMarkdown text stem pathStr).confidence "sphere"
      = some (if pyTruthy (headerGet (parseFrontMatter text) "sphere")
              then mkRat 10 10 else 0))
    ∧ (confGet (spellFromMarkdown text stem pathStr).confidence "class_list"
      = some (if pyTruthy (headerGet (parseFrontMatter text) "class_list")
                || pyTruthy (headerGet (parseFrontMatter text) "classes")
              then mkRat 10 10 else 0))
    ∧ (confGet (spellFromMarkdown text stem pathStr).confidence "range"
      = some (if pyTruthy (headerGet (parseFrontMatter text) "range")
              then mkRat 10 10 else 0))
    ∧ (confGet (spellFromMarkdown text stem pathStr).confidence "components"
      = some (if pyTruthy (headerGet (parseFrontMatter text) "components")
              then mkRat 10 10 else 0))
    ∧ (confGet (spellFromMarkdown text stem pathStr).confidence "duration"
      = some (if pyTruthy (headerGet (parseFrontMatter text) "duration")
              then mkRat 10 10 else 0))
    ∧ (confGet (spellFromMarkdown text stem pathStr).confidence "description"
      = some (if (spellFromMarkdown text stem pathStr).description ≠ ""
              then mkRat 9 10 else mkRat 1 10))
    ∧ (pyTruthy (headerGet (parseFrontMatter text) "name") = true →
        (spellFromMarkdown text stem pathStr).name
          = (headerGet (parseFrontMatter text) "name").getD "")
    ∧ (∀ n : Int, pyInt (levelValOf (parseFrontMatter text)) = some n →
        (spellFromMarkdown text stem pathStr).level = n
        ∧ (intRepr n = levelValOf (parseFrontMatter text) →
            intRepr (spellFromMarkdown text stem pathStr).level
              = levelValOf (parseFrontMatter text)))
    ∧ (parseFrontMatter text = [] →
        confGet (spellFromMarkdown text stem pathStr).confidence "name"
            = some (mkRat 3 10)
        ∧ mkRat 3 10 < mkRat 5 10
        ∧ confGet (spellFromMarkdown text stem pathStr).confidence "level"
            = some (mkRat 2 10)
        ∧ mkRat 2 10 < mkRat 3 10) := by
  refine ⟨rfl, rfl, rfl, rfl, rfl, rfl, rfl, rfl, rfl, rfl, ?_, ?_, ?_⟩
  · intro h
    simp [spellFromMarkdown, h]
  · intro n hn
    have hlev : (spellFromMarkdown text stem pathStr).level = n := by
      show (spellFromMarkdown text stem pathStr).level = n
      simp only [spellFromMarkdown]
      by_cases h1 : levelValOf (parseFrontMatter text) = "cantrip"
      · rw [h1, show pyInt "cantrip" = none from rfl] at hn
        exact Option.noConfusion hn
      · by_cases h2 : levelValOf (parseFrontMatter text) = "quest"
        · rw [h2, show pyInt "quest" = none from rfl] at hn
          exact Option.noConfusion hn
        · by_cases h3 : levelValOf (parseFrontMatter text) = "8"
              ∧ pyTruthy (headerGet (parseFrontMatter text) "sphere") = true
          · have h8 : pyInt "8" = some 8 := by decide
            rw [h3.1] at hn
            rw [h8] at hn
            injection hn with hn'
            simp [h1, h2, h3, ← hn']
          · simp [h1, h2, h3, hn]
    exact ⟨hlev, fun hrep => by rw [hlev, hrep]⟩
  · intro h
    have hfalse : ∀ k, pyTruthy (headerGet (parseFrontMatter text) k) = false := by
      intro k; rw [h]; rfl
    refine ⟨?_, by decide, ?_, by decide⟩
    · show confGet (mdConfidence (parseFrontMatter text) (bodyOf text)) "name" = _
      rw [show confGet (mdConfidence (parseFrontMatter text) (bodyOf text)) "name"
          = some (if pyTruthy (headerGet (parseFrontMatter text) "name")
                  then mkRat 10 10 else mkRat 3 10) from rfl, hfalse "name"]
      rfl
    · show confGet (mdConfidence (parseFrontMatter text) (bodyOf text)) "level" = _
      rw [show confGet (mdConfidence (parseFrontMatter text) (bodyOf text)) "level"
          = some (if pyTruthy (headerGet (parseFrontMatter text) "level")
                  then mkRat 10 10 else mkRat 2 10) from rfl, hfalse "level"]
      rfl

/-- Witness for C3 (amended) at a concrete headerless document. -/
theorem md_confidence_policy_witness :
    confGet (spellFromMarkdown "Just prose." "magic_dart" "p").confidence "name"
        = some (mkRat 3 10)
      ∧ mkRat 3 10 < mkRat 5 10
      ∧ confGet (spellFromMarkdown "Just prose." "magic_dart" "p").confidence "level"
        = some (mkRat 2 10)
      ∧ mkRat 2 10 < mkRat 3 10 :=
  (md_confidence_policy "Just prose." "magic_dart" "p").2.2.2.2.2.2.2.2.2.2.2.2
    (by decide)

lemma pyStrip_as_rdrop (s : String) :
    pyStrip s = ⟨List.rdropWhile pyWs (List.dropWhile pyWs s.data)⟩ := rfl

lemma pyStrip_idem (s : String) : pyStrip (pyStrip s) = pyStrip s := by
  have key : ∀ l : List Char,
      List.dropWhile pyWs (List.rdropWhile pyWs (List.dropWhile pyWs l))
        = List.rdropWhile pyWs (List.dropWhile pyWs l) := by
    intro l
    rw [List.dropWhile_eq_self_iff]
    intro hl
    have hpre : List.rdropWhile pyWs (List.dropWhile pyWs l)
        <+: List.dropWhile pyWs l := List.rdropWhile_prefix _ _
    have hn : 0 < (List.dropWhile pyWs l).length :=
      lt_of_lt_of_le hl hpre.length_le
    have hz := List.dropWhile_get_zero_not pyWs l hn
    simpa [List.get_eq_getElem, List.IsPrefix.getElem hpre hl] using hz
  rw [pyStrip_as_rdrop s, pyStrip_as_rdrop]
  exact congrArg String.mk (by rw [show (String.mk (List.rdropWhile pyWs
    (List.dropWhile pyWs s.data))).data = List.rdropWhile pyWs
    (List.dropWhile pyWs s.data) from rfl, key, List.rdropWhile_idempotent])

lemma frontMatterLine_stripped (init : HeaderMap) (lines : List String)
    (h : ∀ kv ∈ init, kv.1 = pyStrip kv.1 ∧ kv.2 = pyStrip kv.2) :
    ∀ kv ∈ lines.foldl frontMatterLine init,
      kv.1 = pyStrip kv.1 ∧ kv.2 = pyStrip kv.2 := by
  induction lines generalizing init with
  | nil => exact h
  | cons line rest ih =>
    rw [List.foldl_cons]
    apply ih
    intro kv hkv
    unfold frontMatterLine at hkv
    split at hkv
    · exact h kv hkv
    · split at hkv
      · exact h kv hkv
      · rw [List.mem_append] at hkv
        rcases hkv with hkv | hkv
        · exact h kv hkv
        · rw [List.mem_singleton] at hkv
          subst hkv
          exact ⟨(pyStrip_idem _).symm, (pyStrip_idem _).symm⟩

lemma parseFrontMatter_stripped (text : String) :
    ∀ kv ∈ parseFrontMatter text, kv.1 = pyStrip kv.1 ∧ kv.2 = pyStrip kv.2 := by
  unfold parseFrontMatter
  split
  · split
    · split
      · simp
      · exact frontMatterLine_stripped [] _ (by simp)
    · simp
  · simp

lemma pyTitleAux_length (b : Bool) (cs : List Char) :
    (pyTitleAux b cs).length = cs.length := by
  induction cs generalizing b with
  | nil => rfl
  | cons c cs ih => simp only [pyTitleAux]; split <;> simp [ih]

lemma pyTitle_underscore_ne_empty (s : String) (h : s ≠ "") :
    pyTitle (pyUnderscoreToSpace s) ≠ "" := by
  intro hc
  apply h
  have hd := congrArg String.data hc
  have hlen := congrArg List.length hd
  rw [show (pyTitle (pyUnderscoreToSpace s)).data
      = pyTitleAux false (s.data.map fun c => if c = '_' then ' ' else c)
      from rfl, pyTitleAux_length, List.length_map] at hlen
  cases s with
  | mk d =>
    cases d with
    | nil => rfl
    | cons c cs => simp at hlen

lemma spellFromMarkdown_congr (t₁ t₂ stem pathStr : String)
    (hm : ∀ k ∈ canonicalKeys,
      headerGet (parseFrontMatter t₁) k = headerGet (parseFrontMatter t₂) k)
    (hb : bodyOf t₁ = bodyOf t₂) :
    (spellFromMarkdown t₁ stem pathStr).core
      = (spellFromMarkdown t₂ stem pathStr).core := by
  have hname := hm "name" (by decide)
  have hlevel := hm "level" (by decide)
  have hsphere := hm "sphere" (by decide)
  have hcantrip := hm "is_cantrip" (by decide)
  have hschool := hm "school" (by decide)
  have hclist := hm "class_list" (by decide)
  have hclasses := hm "classes" (by decide)
  have hrange := hm "range" (by decide)
  have hcomp := hm "components" (by decide)
  have hdur := hm "duration" (by decide)
  have hmat := hm "material_components" (by decide)
  have hcast := hm "casting_time" (by decide)
  have harea := hm "area" (by decide)
  have hsave := hm "saving_throw" (by decide)
  have hrev := hm "reversible" (by decide)
  have htags := hm "tags" (by decide)
  have hsource := hm "source" (by decide)
  have hedition := hm "edition" (by decide)
  have hauthor := hm "author" (by decide)
  have hlicense := hm "license" (by decide)
  simp only [spellFromMarkdown, SpellRecord.core, mdConfidence, levelValOf,
    markerTruthy]
  simp only [hb, hname, hlevel, hsphere, hcantrip, hschool, hclist, hclasses,
    hrange, hcomp, hdur, hmat, hcast, harea, hsave, hrev, htags, hsource,
    hedition, hauthor, hlicense]

/-- C4: for both binary-kind extractors the per-field confidence equals the
stated policy — name 0.3 always; level 0.6 when the level regex matched,
else 0.1; description 0.7 when non-empty, else 0.1; source 0.5; school,
sphere and class_list 0.0 always. -/
theorem binary_confidence_policy (text stem pathStr : String)
    (paras : List String) :
    confGet (spellFromPdf text stem pathStr).confidence "name" = some (mkRat 3 10)
    ∧ confGet (spellFromPdf text stem pathStr).confidence "level"
        = some (if (findLevel text.data).isSome then mkRat 6 10 else mkRat 1 10)
    ∧ confGet (spellFromPdf text stem pathStr).confidence "description"
        = some (if (spellFromPdf text stem pathStr).description ≠ ""
                then mkRat 7 10 else mkRat 1 10)
    ∧ confGet (spellFromPdf text stem pathStr).confidence "source" = some (mkRat 5 10)
    ∧ confGet (spellFromPdf text stem pathStr).confidence "school" = some 0
    ∧ confGet (spellFromPdf text stem pathStr).confidence "sphere" = some 0
    ∧ confGet (spellFromPdf text stem pathStr).confidence "class_list" = some 0
    ∧ confGet (spellFromDocx paras stem pathStr).confidence "name" = some (mkRat 3 10)
    ∧ confGet (spellFromDocx paras stem pathStr).confidence "level"
        = some (if (findLevel (pyJoin "\n\n" paras).data).isSome
                then mkRat 6 10 else mkRat 1 10)
    ∧ confGet (spellFromDocx paras stem pathStr).confidence "description"
        = some (if (spellFromDocx paras stem pathStr).description ≠ ""
                then mkRat 7 10 else mkRat 1 10)
    ∧ confGet (spellFromDocx paras stem pathStr).confidence "source"
        = some (mkRat 5 10)
    ∧ confGet (spellFromDocx paras stem pathStr).confidence "school" = some 0
    ∧ confGet (spellFromDocx paras stem pathStr).confidence "sphere" = some 0
    ∧ confGet (spellFromDocx paras stem pathStr).confidence "class_list" = some 0 :=
  ⟨rfl, rfl, rfl, rfl, rfl, rfl, rfl, rfl, rfl, rfl, rfl, rfl, rfl, rfl⟩

/-- C5 (counterexample): a structured-text document with no header whose
body opens with the level-1 heading `# Fireball` gets its name from the
filename stem, not from the heading — the claimed heading fallback does not
exist in the code. -/
theorem md_name_heading_cex :
    headerGet (parseFrontMatter "# Fireball\n\nA bright streak.") "name" = none
    ∧ specFirstHeading (bodyOf "# Fireball\n\nA bright streak.")
        = some "# Fireball"
    ∧ (spellFromMarkdown "# Fireball\n\nA bright streak." "magic_dart" "p").name
        = "Magic Dart"
    ∧ "Magic Dart" ≠ "Fireball"
    ∧ "Magic Dart" ≠ "# Fireball" := by
  decide

/-- C5 (amended): the record's name is the explicit header name when that is
present (non-empty), and otherwise the filename stem with underscores
replaced by spaces and title-cased; there is no intermediate heading
fallback. -/
theorem md_name_resolution (text stem pathStr : String) :
    (pyTruthy (headerGet (parseFrontMatter text) "name") = true →
      (spellFromMarkdown text stem pathStr).name
        = (headerGet (parseFrontMatter text) "name").getD "")
    ∧ (pyTruthy (headerGet (parseFrontMatter text) "name") = false →
      (spellFromMarkdown text stem pathStr).name
        = pyTitle (pyUnderscoreToSpace stem)) := by
  constructor <;> intro h <;> simp [spellFromMarkdown, h]

/-- Witness for C5 (amended): headerless document, stem `magic_dart`. -/
theorem md_name_resolution_witness :
    (spellFromMarkdown "plain body" "magic_dart" "p").name = "Magic Dart" :=
  ((md_name_resolution "plain body" "magic_dart" "p").2 (by decide)).trans (by decide)

/-- C6: level parsing of the lower-cased, stripped header value — `cantrip`
gives level 0 with the cantrip flag, `quest` gives level 8 with the quest
flag, `8` with a (non-empty) sphere gives level 8 with the quest flag, and
any other value parses as an integer (0 on failure), the cantrip flag then
requiring the truthy `is_cantrip` marker. -/
theorem md_level_tokens (text stem pathStr : String) :
    (levelValOf (parseFrontMatter text) = "cantrip" →
        (spellFromMarkdown text stem pathStr).level = 0
        ∧ (spellFromMarkdown text stem pathStr).is_cantrip = 1)
    ∧ (levelValOf (parseFrontMatter text) = "quest" →
        (spellFromMarkdown text stem pathStr).level = 8
        ∧ (spellFromMarkdown text stem pathStr).is_quest_spell = 1)
    ∧ (levelValOf (parseFrontMatter text) = "8" →
        pyTruthy (headerGet (parseFrontMatter text) "sphere") = true →
        (spellFromMarkdown text stem pathStr).level = 8
        ∧ (spellFromMarkdown text stem pathStr).is_quest_spell = 1)
    ∧ (levelValOf (parseFrontMatter text) ≠ "cantrip" →
        levelValOf (parseFrontMatter text) ≠ "quest" →
        ¬(levelValOf (parseFrontMatter text) = "8"
            ∧ pyTruthy (headerGet (parseFrontMatter text) "sphere") = true) →
        (spellFromMarkdown text stem pathStr).level
            = (pyInt (levelValOf (parseFrontMatter text))).getD 0
        ∧ ((spellFromMarkdown text stem pathStr).is_cantrip = 1 →
            markerTruthy (parseFrontMatter text) "is_cantrip" = true)) := by
  refine ⟨?_, ?_, ?_, ?_⟩
  · intro h
    constructor <;> simp [spellFromMarkdown, h]
  · intro h
    constructor <;> simp [spellFromMarkdown, h]
  · intro h1 h2
    constructor <;> simp [spellFromMarkdown, h1, h2]
  · intro h1 h2 h3
    constructor
    · simp only [spellFromMarkdown, if_neg h1, if_neg h2, if_neg h3]
      cases hp : pyInt (levelValOf (parseFrontMatter text)) <;> simp [hp]
    · simp only [spellFromMarkdown, if_neg h1, if_neg h2, if_neg h3]
      cases hp : pyInt (levelValOf (parseFrontMatter text)) with
      | none => simp
      | some n =>
        by_cases hc : n = 0 ∧ markerTruthy (parseFrontMatter text) "is_cantrip" = true
        · intro _; exact hc.2
        · simp [hc]

/-- Witness for C6 at the `cantrip` token. -/
theorem md_level_tokens_witness :
    (spellFromMarkdown "---\nlevel: cantrip\n---\nX." "x" "p").level = 0
      ∧ (spellFromMarkdown "---\nlevel: cantrip\n---\nX." "x" "p").is_cantrip = 1 :=
  (md_level_tokens "---\nlevel: cantrip\n---\nX." "x" "p").1 (by decide)

/-- C7 (counterexample): front-matter normalization neither lower-cases keys
nor applies an alias table nor drops empty values or unresolved keys — the
parsed mapping of a header with `title`, an empty-valued `blank` and a
capitalized `Name` retains all three non-canonical keys verbatim, `title`
does not resolve to `name`, and the record's name falls back to the
filename. -/
theorem header_normalization_cex :
    parseFrontMatter "---\ntitle: Fireball\nblank:\nName: X\n---\nBody."
        = [("title", "Fireball"), ("blank", ""), ("Name", "X")]
    ∧ ¬ ("title" ∈ specCanonicalFields)
    ∧ ¬ ("blank" ∈ specCanonicalFields)
    ∧ ¬ ("Name" ∈ specCanonicalFields)
    ∧ headerGet
        (parseFrontMatter "---\ntitle: Fireball\nblank:\nName: X\n---\nBody.")
        "name" = none
    ∧ (spellFromMarkdown "---\ntitle: Fireball\nblank:\nName: X\n---\nBody."
        "magic_dart" "p").name = "Magic Dart" := by
  decide

/-- C7 (amended): keys and values of the parsed header are whitespace-trimmed
(and nothing more — no lower-casing, underscore collapsing or alias table,
and empty-valued or unrecognized pairs stay in the mapping); the only alias
honoured is `classes` as a fallback for `class_list` at record construction;
and the record reads only the fixed canonical key set, so unrecognized keys
never influence (in particular never overwrite) canonical fields. -/
theorem header_normalization_amended (text stem pathStr : String) :
    (∀ kv ∈ parseFrontMatter text, kv.1 = pyStrip kv.1 ∧ kv.2 = pyStrip kv.2)
    ∧ ((spellFromMarkdown text stem pathStr).class_list
        = if pyTruthy (headerGet (parseFrontMatter text) "class_list")
          then headerGet (parseFrontMatter text) "class_list"
          else headerGet (parseFrontMatter text) "classes")
    ∧ (∀ text' : String,
        (∀ k ∈ canonicalKeys,
          headerGet (parseFrontMatter text) k
            = headerGet (parseFrontMatter text') k) →
        bodyOf text = bodyOf text' →
        (spellFromMarkdown text stem pathStr).core
          = (spellFromMarkdown text' stem pathStr).core) := by
  refine ⟨parseFrontMatter_stripped text, rfl, ?_⟩
  intro t' hm hb
  exact spellFromMarkdown_congr text t' stem pathStr hm hb

/-- Witness for C7 (amended): adding the unrecognized pair `extra: junk`
leaves every canonical field of the record unchanged. -/
theorem header_normalization_amended_witness :
    (spellFromMarkdown "---\nname: Fireball\nextra: junk\n---\nBody." "s" "p").core
      = (spellFromMarkdown "---\nname: Fireball\n---\nBody." "s" "p").core :=
  (header_normalization_amended "---\nname: Fireball\nextra: junk\n---\nBody."
      "s" "p").2.2
    "---\nname: Fireball\n---\nBody." (by decide) (by decide)

/-- C8 (counterexample): a structured-text header `level: -3` produces the
negative record level −3, refuting "level is always a non-negative
integer". -/
theorem md_negative_level_cex :
    (spellFromMarkdown "---\nlevel: -3\n---\nDark pact." "x" "p").level = -3
    ∧ (spellFromMarkdown "---\nlevel: -3\n---\nDark pact." "x" "p").level < 0 := by
  decide

/-- C8 (amended): name is always populated (non-empty for a non-empty
filename stem) in every extractor, description is always set (the body for
structured text — the whole text when there is no front matter — and the
trimmed full text for the binary kinds), the level is an integer that can
only be negative when the structured-text header itself supplies a negative
integer (the binary extractors always yield a non-negative level), and
header keys outside the canonical set never influence canonical fields. -/
theorem record_invariants_amended :
    (∀ text stem pathStr : String, stem ≠ "" →
        (spellFromMarkdown text stem pathStr).name ≠ "")
    ∧ (∀ text stem pathStr : String,
        (spellFromMarkdown text stem pathStr).level < 0 →
        ∃ n : Int, n < 0 ∧ pyInt (levelValOf (parseFrontMatter text)) = some n)
    ∧ (∀ text stem pathStr : String,
        (spellFromMarkdown text stem pathStr).description = bodyOf text)
    ∧ (∀ text : String, pyStartsWith "---" text = false → bodyOf text = text)
    ∧ (∀ text stem pathStr : String, 0 ≤ (spellFromPdf text stem pathStr).level)
    ∧ (∀ text stem pathStr : String, stem ≠ "" →
        (spellFromPdf text stem pathStr).name ≠ "")
    ∧ (∀ text stem pathStr : String,
        (spellFromPdf text stem pathStr).description = pyStrip text)
    ∧ (∀ (paras : List String) (stem pathStr : String),
        0 ≤ (spellFromDocx paras stem pathStr).level)
    ∧ (∀ (paras : List String) (stem pathStr : String), stem ≠ "" →
        (spellFromDocx paras stem pathStr).name ≠ "")
    ∧ (∀ (paras : List String) (stem pathStr : String),
        (spellFromDocx paras stem pathStr).description
          = pyStrip (pyJoin "\n\n" paras))
    ∧ (∀ t₁ t₂ stem pathStr : String,
        (∀ k ∈ canonicalKeys,
          headerGet (parseFrontMatter t₁) k = headerGet (parseFrontMatter t₂) k) →
        bodyOf t₁ = bodyOf t₂ →
        (spellFromMarkdown t₁ stem pathStr).core
          = (spellFromMarkdown t₂ stem pathStr).core) := by
  refine ⟨?_, ?_, fun _ _ _ => rfl, ?_, ?_, ?_, fun _ _ _ => rfl, ?_, ?_,
    fun _ _ _ => rfl, ?_⟩
  · intro text stem pathStr h
    by_cases ht : pyTruthy (headerGet (parseFrontMatter text) "name") = true
    · cases hg : headerGet (parseFrontMatter text) "name" with
      | none => rw [hg] at ht; exact absurd ht (by decide)
      | some s =>
        rw [hg] at ht
        have hs : s ≠ "" := by
          intro hcon
          subst hcon
          exact absurd ht (by decide)
        have hn : (spellFromMarkdown text stem pathStr).name = s := by
          simp [spellFromMarkdown, hg, ht]
        rw [hn]; exact hs
    · rw [Bool.not_eq_true] at ht
      have hn : (spellFromMarkdown text stem pathStr).name
          = pyTitle (pyUnderscoreToSpace stem) := by
        simp [spellFromMarkdown, ht]
      rw [hn]; exact pyTitle_underscore_ne_empty stem h
  · intro text stem pathStr h
    by_cases h1 : levelValOf (parseFrontMatter text) = "cantrip"
    · simp [spellFromMarkdown, h1] at h
    · by_cases h2 : levelValOf (parseFrontMatter text) = "quest"
      · simp [spellFromMarkdown, h1, h2] at h
      · by_cases h3 : levelValOf (parseFrontMatter text) = "8"
            ∧ pyTruthy (headerGet (parseFrontMatter text) "sphere") = true
        · simp [spellFromMarkdown, h1, h2, h3] at h
        · simp only [spellFromMarkdown, if_neg h1, if_neg h2, if_neg h3] at h
          cases hp : pyInt (levelValOf (parseFrontMatter text)) with
          | none => rw [hp] at h; simp at h
          | some n =>
            rw [hp] at h
            simp at h
            exact ⟨n, h, rfl⟩
  · intro text h
    unfold bodyOf
    simp [h]
  · intro text stem pathStr
    exact Int.natCast_nonneg _
  · intro text stem pathStr h
    exact pyTitle_underscore_ne_empty stem h
  · intro paras stem pathStr
    exact Int.natCast_nonneg _
  · intro paras stem pathStr h
    exact pyTitle_underscore_ne_empty stem h
  · intro t₁ t₂ stem pathStr hm hb
    exact spellFromMarkdown_congr t₁ t₂ stem pathStr hm hb

/-- Witness for C8 (amended): the headerless fallback name is non-empty. -/
theorem record_invariants_amended_witness :
    (spellFromMarkdown "body" "magic_dart" "p").name ≠ "" :=
  record_invariants_amended.1 "body" "magic_dart" "p" (by decide)

/-- C10: the derived flags of the structured-text extractor are coupled to
the level — `is_cantrip = 1` forces level 0, `is_quest_spell = 1` forces
level 8, the two flags are never both set, and each flag is exactly 0 or 1. -/
theorem md_flag_coupling (text stem pathStr : String) :
    ((spellFromMarkdown text stem pathStr).is_cantrip = 1 →
        (spellFromMarkdown text stem pathStr).level = 0)
    ∧ ((spellFromMarkdown text stem pathStr).is_quest_spell = 1 →
        (spellFromMarkdown text stem pathStr).level = 8)
    ∧ ¬((spellFromMarkdown text stem pathStr).is_cantrip = 1
        ∧ (spellFromMarkdown text stem pathStr).is_quest_spell = 1)
    ∧ ((spellFromMarkdown text stem pathStr).is_cantrip = 0
        ∨ (spellFromMarkdown text stem pathStr).is_cantrip = 1)
    ∧ ((spellFromMarkdown text stem pathStr).is_quest_spell = 0
        ∨ (spellFromMarkdown text stem pathStr).is_quest_spell = 1) := by
  by_cases h1 : levelValOf (parseFrontMatter text) = "cantrip"
  · simp [spellFromMarkdown, h1]
  · by_cases h2 : levelValOf (parseFrontMatter text) = "quest"
    · simp [spellFromMarkdown, h1, h2]
    · by_cases h3 : levelValOf (parseFrontMatter text) = "8"
          ∧ pyTruthy (headerGet (parseFrontMatter text) "sphere") = true
      · simp [spellFromMarkdown, h1, h2, h3]
      · cases hp : pyInt (levelValOf (parseFrontMatter text)) with
        | none => simp [spellFromMarkdown, h1, h2, h3, hp]
        | some n =>
          by_cases hc : n = 0 ∧ markerTruthy (parseFrontMatter text) "is_cantrip" = true
          · simp [spellFromMarkdown, h1, h2, h3, hp, hc, hc.1]
          · simp [spellFromMarkdown, h1, h2, h3, hp, hc]

/-- Witness for C10 at the `quest` token. -/
theorem md_flag_coupling_witness :
    (spellFromMarkdown "---\nlevel: quest\n---\nY." "y" "p").level = 8 :=
  (md_flag_coupling "---\nlevel: quest\n---\nY." "y" "p").2.1 (by decide)
